import Mathlib

/-!
Verification of the temporal-geodetic query kernel of `iss_tracker.py`.

The Python functions under verification are `convert_iso_dis_8601`,
`fetch_epoch_data`, `fetch_index_request`, `cartesian_velocity_to_speed` and
`compute_average_speed`.  Each is embedded below as a Lean function of the
same name.  Python exceptions caught by the surrounding `try/except` blocks
(which log and fall through, returning `None`) are modelled by `Option`:
`none` is the logged-failure outcome.

Python strings are modelled as `String` at the boundary and as `List Char`
internally, with `str.split` on a one-character separator embedded as
`splitChar`.  `int(str)` is embedded as `pyInt?` (optional surrounding
whitespace, optional sign, a non-empty run of ASCII decimal digits; the
underscore-separator and non-ASCII-digit corners of CPython's parser are out
of scope, as the repository only ever feeds it timestamp fragments and query
parameters).  Python list slicing `l[a:b]` is embedded as `pySlice`, with
CPython's exact index resolution (negative indices count from the end, then
both ends are clamped into `[0, len]`).

Python floats are modelled by `PyFloat`: an explicitly tagged value that is
either finite (carried exactly as a real number — rounding and overflow of
IEEE-754 doubles are abstracted away, since every claim about this code
concerns the handling of non-finite values and of parse failures, not
rounding), or `inf`, `-inf`, or `nan`.  `float(str)` is embedded as
`pyFloat?`, `x ** 2` as `pySq`, `+` as `pyAdd` and `math.sqrt` as `pySqrt`
(raising `ValueError` — i.e. `none` — on negative or `-inf` arguments, and
propagating `nan` and `inf`, exactly as CPython does).
-/

/-- The whitespace characters stripped by CPython's `int(str)`/`float(str)`. -/
def isPySpace (c : Char) : Bool :=
  c == ' ' || c == '\t' || c == '\n' || c == '\r' || c == '\x0b' || c == '\x0c'

/-- Strip leading and trailing whitespace, as `int(str)`/`float(str)` do. -/
def stripWS (cs : List Char) : List Char :=
  ((cs.dropWhile isPySpace).reverse.dropWhile isPySpace).reverse

/-- Python `str.split(sep)` for a one-character separator `sep`:
`"aTTb".split("T") == ["a", "", "b"]` and `"".split("T") == [""]`. -/
def splitChar (sep : Char) : List Char → List (List Char)
  | [] => [[]]
  | c :: rest =>
    match splitChar sep rest with
    | [] => [[c]]
    | g :: gs => if c = sep then [] :: g :: gs else (c :: g) :: gs

/-- Numeric value of an ASCII decimal digit. -/
def digitVal (c : Char) : Nat := c.toNat - '0'.toNat

/-- Value of a run of ASCII decimal digits. -/
def digitsToNat (cs : List Char) : Nat := cs.foldl (fun a c => a * 10 + digitVal c) 0

/-- Parse a non-empty run of ASCII decimal digits, else `none`. -/
def pyIntDigits? (cs : List Char) : Option Nat :=
  if cs ≠ [] ∧ cs.all Char.isDigit then some (digitsToNat cs) else none

/-- Optional sign followed by a non-empty digit run (no surrounding space). -/
def signedDigits? (cs : List Char) : Option Int :=
  match cs with
  | '+' :: rest => (pyIntDigits? rest).map (fun n => (n : Int))
  | '-' :: rest => (pyIntDigits? rest).map (fun n => -(n : Int))
  | _ => (pyIntDigits? cs).map (fun n => (n : Int))

/-- CPython `int(str)`: `some` the parsed integer, `none` models `ValueError`. -/
def pyInt? (cs : List Char) : Option Int := signedDigits? (stripWS cs)

/-- CPython list slicing `l[a:b]` (step 1): a negative bound counts from the
end of the list, then both bounds are clamped into `[0, len(l)]`; the result
is the (possibly empty) segment between the resolved bounds.  Never raises. -/
def pySlice {α : Type} (l : List α) (a b : Int) : List α :=
  let n : Int := l.length
  let a2 : Int := if a < 0 then max (n + a) 0 else min a n
  let b2 : Int := if b < 0 then max (n + b) 0 else min b n
  (l.drop a2.toNat).take (b2 - a2).toNat

/-- Decimal digits of `n`, most significant first; `fuel` bounds recursion and
is always called with `fuel > n` so the bound is never hit. -/
def natDigitsAux : Nat → Nat → List Char
  | 0, _ => []
  | fuel + 1, n =>
    if n < 10 then [Char.ofNat ('0'.toNat + n)]
    else natDigitsAux fuel (n / 10) ++ [Char.ofNat ('0'.toNat + n % 10)]

/-- CPython `str(int)`. -/
def intRepr (i : Int) : List Char :=
  if i < 0 then '-' :: natDigitsAux (i.natAbs + 1) i.natAbs
  else natDigitsAux (i.natAbs + 1) i.natAbs

/-- The `while len(days_string) < 3: days_string = "0" + days_string` loop of
`convert_iso_dis_8601`. -/
def padTo3 (cs : List Char) : List Char :=
  if cs.length ≥ 3 then cs
  else if cs.length = 2 then '0' :: cs
  else if cs.length = 1 then '0' :: '0' :: cs
  else ['0', '0', '0']

/-- The month-length table of `convert_iso_dis_8601`: `days_per_month` starts
as the non-leap table and index 1 (February) is set to 29 when
`int(convert_sec[0]) % 4 == 0`.  (Python `%` on ints and `Int.emod` agree:
both return a result with the sign of the divisor.) -/
def days_per_month (year : Int) : List Int :=
  if year % 4 = 0 then [31, 29, 31, 30, 31, 30, 31, 31, 30, 31, 30, 31]
  else [31, 28, 31, 30, 31, 30, 31, 31, 30, 31, 30, 31]

/-- `days = sum(days_per_month[:month-1], int(convert_sec[2]))` of
`convert_iso_dis_8601`: the slice is CPython slicing, so an out-of-range
`month` silently truncates instead of raising. -/
def convert_days (year month day : Int) : Int :=
  (pySlice (days_per_month year) 0 (month - 1)).sum + day

/-- `time_split = standard_time.split('T')` of `convert_iso_dis_8601`. -/
def time_split (s : String) : List (List Char) := splitChar 'T' s.toList

/-- `convert_sec = time_split[0].split('-')` of `convert_iso_dis_8601`
(`time_split[0]` always exists: `split` never returns an empty list). -/
def convert_sec (s : String) : List (List Char) :=
  splitChar '-' ((time_split s).headD [])

/-- `convert_iso_dis_8601(standard_time)`: convert an ISO/DIS 8601 calendar
timestamp to the dataset's day-of-year format.  The body is wrapped in
`try/except`, so an `IndexError` (missing `T` part or missing date field) or
`ValueError` (non-numeric field) anywhere yields `none`; otherwise the result
is `convert_sec[0] + '-' + days_string + 'T' + time_split[1]`. -/
def convert_iso_dis_8601 (standard_time : String) : Option String :=
  let ts := time_split standard_time
  let cs := convert_sec standard_time
  match (cs[0]?).bind pyInt?, (cs[1]?).bind pyInt?, (cs[2]?).bind pyInt?, ts[1]? with
  | some y, some m, some d, some t1 =>
      some (String.mk ((cs.headD []) ++ ('-' :: padTo3 (intRepr (convert_days y m d))) ++ ('T' :: t1)))
  | _, _, _, _ => none

/-- One record of the ISS dataset, restricted to the fields the verified
functions read: `EPOCH`, and the `X_DOT/Y_DOT/Z_DOT -> '#text'` strings.
A `none` velocity field models a missing key (Python `KeyError`). -/
structure StateVector where
  EPOCH : String
  X_DOT : Option String
  Y_DOT : Option String
  Z_DOT : Option String
deriving DecidableEq

/-- Result of `fetch_epoch_data`: the matched record (`data[epoch_index]`) or
the empty-list no-match signal the Python code returns. -/
inductive FetchResult where
  | found (r : StateVector)
  | noMatch
deriving DecidableEq

/-- `src_fragments = epoch.split(':')` of `fetch_epoch_data`. -/
def epoch_fragments (s : String) : List (List Char) := splitChar ':' s.toList

/-- The eligibility test `src_fragments[0] == comp_fragments[0]` of
`fetch_epoch_data` (both index-0 fragments always exist). -/
abbrev coarse_eq (src : List (List Char)) (r : StateVector) : Prop :=
  (splitChar ':' r.EPOCH.toList)[0]? = src[0]?

/-- `abs(int(src_fragments[1]) - int(comp_fragments[1]))` of
`fetch_epoch_data`; `none` models the `IndexError`/`ValueError` raised when a
minute fragment is missing or non-numeric. -/
def minute_diff (src : List (List Char)) (r : StateVector) : Option Int :=
  match (src[1]?).bind pyInt?, ((splitChar ':' r.EPOCH.toList)[1]?).bind pyInt? with
  | some sm, some cm => some |sm - cm|
  | _, _ => none

/-- The `for i, ele in enumerate(data)` loop of `fetch_epoch_data`, carrying
the loop state `(closeness, epoch_index, match_found)`; `i` is the index of
the head of the remaining list.  An exception inside the loop aborts the whole
call (`none`). -/
def fetch_epoch_go (src : List (List Char)) :
    List StateVector → Nat → Int → Int → Bool → Option (Int × Int × Bool)
  | [], _, closeness, epoch_index, match_found =>
      some (closeness, epoch_index, match_found)
  | r :: rest, i, closeness, epoch_index, match_found =>
    if coarse_eq src r then
      match minute_diff src r with
      | some comp_closeness =>
        if comp_closeness < closeness then
          fetch_epoch_go src rest (i + 1) comp_closeness (i : Int) true
        else
          fetch_epoch_go src rest (i + 1) closeness epoch_index match_found
      | none => none
    else
      fetch_epoch_go src rest (i + 1) closeness epoch_index match_found

/-- `fetch_epoch_data(data, epoch)`: run the loop from
`closeness = 77, epoch_index = -1, match_found = False`; on `match_found ==
False` log and return the empty list (`noMatch`), else return
`data[epoch_index]` (when `match_found` holds, `epoch_index` is a valid
non-negative index, so Python's negative-index behaviour is unreachable). -/
def fetch_epoch_data (data : List StateVector) (epoch : String) : Option FetchResult :=
  match fetch_epoch_go (epoch_fragments epoch) data 0 77 (-1) false with
  | none => none
  | some (_, epoch_index, match_found) =>
    if match_found = false then some FetchResult.noMatch
    else
      match data[epoch_index.toNat]? with
      | some r => some (FetchResult.found r)
      | none => none

/-- `int_offset` of `fetch_index_request`: `int(offset)` with a
`TypeError` (absent) or `ValueError` (non-numeric) defaulting to `0`. -/
def resolve_offset (offset : Option String) : Int :=
  (offset.bind (fun s => pyInt? s.toList)).getD 0

/-- `int_limit` of `fetch_index_request`: `int(limit)` with a
`TypeError`/`ValueError` defaulting to `len(data)`. -/
def resolve_limit {α : Type} (data : List α) (limit : Option String) : Int :=
  (limit.bind (fun s => pyInt? s.toList)).getD (data.length : Int)

/-- `fetch_index_request(data, offset, limit)`: the final
`for i in data[int_offset:int_limit]: requested.append(i)` loop copies the
slice, so the function is the slice itself.  It never fails. -/
def fetch_index_request {α : Type} (data : List α) (offset limit : Option String) : List α :=
  pySlice data (resolve_offset offset) (resolve_limit data limit)

/-- Window semantics as the specification words it: both indices clamped into
`[0, length]` (no negative-index wrap-around), then the segment between them.
Stated from the spec for comparison with `fetch_index_request`. -/
def clamp_window_spec {α : Type} (data : List α) (a b : Int) : List α :=
  let n : Int := data.length
  let a2 : Int := min (max a 0) n
  let b2 : Int := min (max b 0) n
  (data.drop a2.toNat).take (b2 - a2).toNat

/-- A CPython float, with the finite case carried exactly (see file header). -/
inductive PyFloat where
  | fin (x : ℝ)
  | inf
  | neginf
  | nan

/-- Python `x ** 2` on floats: squares of infinities are `inf`, the square of
`nan` is `nan`. -/
noncomputable def pySq : PyFloat → PyFloat
  | .fin x => .fin (x ^ 2)
  | .inf => .inf
  | .neginf => .inf
  | .nan => .nan

/-- IEEE-754 float addition on the `PyFloat` tags. -/
noncomputable def pyAdd : PyFloat → PyFloat → PyFloat
  | .nan, _ => .nan
  | _, .nan => .nan
  | .inf, .neginf => .nan
  | .neginf, .inf => .nan
  | .inf, _ => .inf
  | _, .inf => .inf
  | .neginf, _ => .neginf
  | _, .neginf => .neginf
  | .fin x, .fin y => .fin (x + y)

open Classical in
/-- `math.sqrt`: raises `ValueError` (`none`) on a negative or `-inf`
argument; `math.sqrt(inf) == inf` and `math.sqrt(nan)` is `nan`. -/
noncomputable def pySqrt : PyFloat → Option PyFloat
  | .fin x => if 0 ≤ x then some (.fin (Real.sqrt x)) else none
  | .inf => some .inf
  | .neginf => none
  | .nan => some .nan

/-- Python `x / n` for a float `x` and a positive int `n` (the `n = 0`
`ZeroDivisionError` is handled by the caller before dividing). -/
noncomputable def pyDivNat : PyFloat → Nat → PyFloat
  | .fin x, n => .fin (x / n)
  | .inf, _ => .inf
  | .neginf, _ => .neginf
  | .nan, _ => .nan

/-- ASCII lowercase, for CPython's case-insensitive float parsing. -/
def lowerChars (cs : List Char) : List Char := cs.map Char.toLower

/-- Mantissa of a float literal: `[digits] [. [digits]]` with at least one
digit overall. -/
def parseMantissa? (cs : List Char) : Option ℚ :=
  match splitChar '.' cs with
  | [ip] => (pyIntDigits? ip).map (fun n => (n : ℚ))
  | [ip, fp] =>
      if ip = [] ∧ fp = [] then none
      else if ip.all Char.isDigit ∧ fp.all Char.isDigit then
        some ((digitsToNat ip : ℚ) + (digitsToNat fp : ℚ) / ((10 : ℚ) ^ fp.length))
      else none
  | _ => none

/-- Unsigned float literal: mantissa with an optional `e`-exponent. -/
def parseUnsignedFloat? (cs : List Char) : Option ℚ :=
  match splitChar 'e' (lowerChars cs) with
  | [mant] => parseMantissa? mant
  | [mant, ex] =>
      match parseMantissa? mant, signedDigits? ex with
      | some q, some e => some (q * (10 : ℚ) ^ e)
      | _, _ => none
  | _ => none

/-- CPython `float(str)`: strip whitespace, take an optional sign, then either
a case-insensitive `nan`/`inf`/`infinity` or a decimal literal; `none` models
`ValueError`. -/
noncomputable def pyFloat? (cs0 : List Char) : Option PyFloat :=
  let t := stripWS cs0
  let su : Bool × List Char :=
    match t with
    | '+' :: r => (false, r)
    | '-' :: r => (true, r)
    | r => (false, r)
  let low := lowerChars su.2
  if low = ['n', 'a', 'n'] then some .nan
  else if low = ['i', 'n', 'f'] ∨ low = ['i', 'n', 'f', 'i', 'n', 'i', 't', 'y'] then
    some (if su.1 then .neginf else .inf)
  else
    (parseUnsignedFloat? su.2).map (fun q => .fin (((if su.1 then -q else q) : ℚ) : ℝ))

/-- `cartesian_velocity_to_speed(x_dot, y_dot, z_dot)`:
`math.sqrt(x_dot**2 + y_dot**2 + z_dot**2)` inside `try/except`, so a raised
`ValueError` becomes `none`. -/
noncomputable def cartesian_velocity_to_speed (x_dot y_dot z_dot : PyFloat) : Option PyFloat :=
  pySqrt (pyAdd (pyAdd (pySq x_dot) (pySq y_dot)) (pySq z_dot))

/-- The inner `try` block of `compute_average_speed`: read and parse the
three velocity components of one record; `none` models the caught
`KeyError`/`ValueError` that makes the record be skipped. -/
noncomputable def record_velocity (r : StateVector) : Option (PyFloat × PyFloat × PyFloat) :=
  match r.X_DOT.bind (fun s => pyFloat? s.toList),
        r.Y_DOT.bind (fun s => pyFloat? s.toList),
        r.Z_DOT.bind (fun s => pyFloat? s.toList) with
  | some x, some y, some z => some (x, y, z)
  | _, _, _ => none

/-- The record loop of `compute_average_speed`, accumulating
`(running_avg, avg_members)`.  A record whose components do not parse is
skipped; a `None` from `cartesian_velocity_to_speed` would make
`running_avg += None` raise a `TypeError` caught by the same inner `except`,
also skipping the record. -/
noncomputable def average_loop : List StateVector → PyFloat → Nat → PyFloat × Nat
  | [], running_avg, avg_members => (running_avg, avg_members)
  | r :: rest, running_avg, avg_members =>
    match record_velocity r with
    | none => average_loop rest running_avg avg_members
    | some (x, y, z) =>
      match cartesian_velocity_to_speed x y z with
      | none => average_loop rest running_avg avg_members
      | some s => average_loop rest (pyAdd running_avg s) (avg_members + 1)

/-- `compute_average_speed(data)`: run the loop from `running_avg = 0,
avg_members = 0`; `average = running_avg / avg_members` raises
`ZeroDivisionError` when no record was counted, which the outer `except`
turns into the logged failure `none`. -/
noncomputable def compute_average_speed (data : List StateVector) : Option PyFloat :=
  let res := average_loop data (PyFloat.fin 0) 0
  if res.2 = 0 then none else some (pyDivNat res.1 res.2)

/-- Shape invariant for the radicand built inside
`cartesian_velocity_to_speed`: it is `nan`, `inf`, or a non-negative finite
value, hence `math.sqrt` never raises there. -/
abbrev sumSqShape (p : PyFloat) : Prop :=
  p = .nan ∨ p = .inf ∨ ∃ x : ℝ, 0 ≤ x ∧ p = .fin x

/-! Helper lemmas about the `fetch_epoch_data` loop. -/

/-- If no record's coarse fragment equals the query's, the loop leaves its
state untouched. -/
theorem go_all_miss (src : List (List Char)) :
    ∀ (l : List StateVector) (i : Nat) (cl idx : Int) (mf : Bool),
      (∀ r ∈ l, ¬ coarse_eq src r) →
      fetch_epoch_go src l i cl idx mf = some (cl, idx, mf) := by
  intro l
  induction l with
  | nil => intro i cl idx mf _; rfl
  | cons r0 rest ih =>
    intro i cl idx mf h
    have hr : ¬ coarse_eq src r0 := h r0 (List.mem_cons_self r0 rest)
    simp only [fetch_epoch_go, if_neg hr]
    exact ih (i + 1) cl idx mf (fun x hx => h x (List.mem_cons_of_mem r0 hx))

/-- If some record's coarse fragment matches but a minute fragment fails to
parse, the whole call raises (returns `none`), whatever the loop state. -/
theorem go_bad_fragment (src : List (List Char)) :
    ∀ (l : List StateVector) (i : Nat) (cl idx : Int) (mf : Bool),
      (∃ r ∈ l, coarse_eq src r ∧ minute_diff src r = none) →
      fetch_epoch_go src l i cl idx mf = none := by
  intro l
  induction l with
  | nil => intro i cl idx mf h; rcases h with ⟨r, hr, _⟩; cases hr
  | cons r0 rest ih =>
    intro i cl idx mf h
    rcases h with ⟨r, hr, hc, hm⟩
    rcases List.mem_cons.mp hr with heq | hmem
    · subst heq
      simp only [fetch_epoch_go, if_pos hc, hm]
    · by_cases h0 : coarse_eq src r0
      · simp only [fetch_epoch_go, if_pos h0]
        split
        · split
          · exact ih _ _ _ _ ⟨r, hmem, hc, hm⟩
          · exact ih _ _ _ _ ⟨r, hmem, hc, hm⟩
        · rfl
      · simp only [fetch_epoch_go, if_neg h0]
        exact ih _ _ _ _ ⟨r, hmem, hc, hm⟩

/-- The loop only ever stores the current position into `epoch_index`, so the
final index is either the initial one or at least the starting position. -/
theorem go_index_ge (src : List (List Char)) :
    ∀ (l : List StateVector) (i : Nat) (cl idx : Int) (mf : Bool) (cl2 idx2 : Int) (mf2 : Bool),
      fetch_epoch_go src l i cl idx mf = some (cl2, idx2, mf2) →
      idx2 = idx ∨ (i : Int) ≤ idx2 := by
  intro l
  induction l with
  | nil =>
    intro i cl idx mf cl2 idx2 mf2 h
    simp only [fetch_epoch_go, Option.some.injEq, Prod.mk.injEq] at h
    exact Or.inl h.2.1.symm
  | cons r0 rest ih =>
    intro i cl idx mf cl2 idx2 mf2 h
    by_cases h0 : coarse_eq src r0
    · simp only [fetch_epoch_go, if_pos h0] at h
      split at h
      · split at h
        · rcases ih _ _ _ _ _ _ _ h with h1 | h2
          · subst h1; exact Or.inr le_rfl
          · exact Or.inr (by omega)
        · rcases ih _ _ _ _ _ _ _ h with h1 | h2
          · exact Or.inl h1
          · exact Or.inr (by omega)
      · exact Option.noConfusion h
    · simp only [fetch_epoch_go, if_neg h0] at h
      rcases ih _ _ _ _ _ _ _ h with h1 | h2
      · exact Or.inl h1
      · exact Or.inr (by omega)

/-- Once the running minimum is at most the minute difference of the eligible
candidate at position `i + k`, that candidate can never become the stored
index: only a strictly smaller difference replaces the current best. -/
theorem go_no_catch_up (src : List (List Char)) :
    ∀ (l : List StateVector) (k : Nat) (r : StateVector) (d : Int) (i : Nat) (cl idx : Int) (mf : Bool),
      l[k]? = some r → coarse_eq src r → minute_diff src r = some d → cl ≤ d →
      idx ≠ ((i + k : Nat) : Int) →
      ∀ cl2 idx2 mf2, fetch_epoch_go src l i cl idx mf = some (cl2, idx2, mf2) →
        idx2 ≠ ((i + k : Nat) : Int) := by
  intro l
  induction l with
  | nil => intro k r d i cl idx mf hk; simp at hk
  | cons r0 rest ih =>
    intro k r d i cl idx mf hk hc hm hcl hidx cl2 idx2 mf2 hgo
    cases k with
    | zero =>
      rw [List.getElem?_cons_zero] at hk
      injection hk with hk
      subst hk
      simp only [fetch_epoch_go, if_pos hc] at hgo
      split at hgo
      · rename_i cc hcc
        rw [hm] at hcc
        injection hcc with hcc
        subst hcc
        split at hgo
        · rename_i hlt
          omega
        · rcases go_index_ge src rest (i + 1) cl idx mf cl2 idx2 mf2 hgo with h1 | h2
          · rw [h1]; exact hidx
          · omega
      · rename_i hcc
        rw [hm] at hcc
        exact Option.noConfusion hcc
    | succ k1 =>
      rw [List.getElem?_cons_succ] at hk
      by_cases h0 : coarse_eq src r0
      · simp only [fetch_epoch_go, if_pos h0] at hgo
        split at hgo
        · rename_i d0 hd0
          split at hgo
          · rename_i hlt
            have hres := ih k1 r d (i + 1) d0 (i : Int) true hk hc hm (by omega)
              (by omega) cl2 idx2 mf2 hgo
            omega
          · have hres := ih k1 r d (i + 1) cl idx mf hk hc hm hcl
              (by omega) cl2 idx2 mf2 hgo
            omega
        · exact Option.noConfusion hgo
      · simp only [fetch_epoch_go, if_neg h0] at hgo
        have hres := ih k1 r d (i + 1) cl idx mf hk hc hm hcl
          (by omega) cl2 idx2 mf2 hgo
        omega

/-- Two eligible candidates with the same minute difference: the later one is
never the stored index at the end of the loop. -/
theorem go_tie (src : List (List Char)) :
    ∀ (l : List StateVector) (k1 k2 : Nat) (r1 r2 : StateVector) (d : Int) (i : Nat) (cl idx : Int) (mf : Bool),
      k1 < k2 → l[k1]? = some r1 → l[k2]? = some r2 →
      coarse_eq src r1 → coarse_eq src r2 →
      minute_diff src r1 = some d → minute_diff src r2 = some d →
      idx ≠ ((i + k2 : Nat) : Int) →
      ∀ cl2 idx2 mf2, fetch_epoch_go src l i cl idx mf = some (cl2, idx2, mf2) →
        idx2 ≠ ((i + k2 : Nat) : Int) := by
  intro l
  induction l with
  | nil => intro k1 k2 r1 r2 d i cl idx mf _ hk1; simp at hk1
  | cons r0 rest ih =>
    intro k1 k2 r1 r2 d i cl idx mf hlt12 hk1 hk2 hc1 hc2 hm1 hm2 hidx cl2 idx2 mf2 hgo
    cases k2 with
    | zero => omega
    | succ k2p =>
      rw [List.getElem?_cons_succ] at hk2
      cases k1 with
      | zero =>
        rw [List.getElem?_cons_zero] at hk1
        injection hk1 with hk1
        subst hk1
        simp only [fetch_epoch_go, if_pos hc1] at hgo
        split at hgo
        · rename_i cc hcc
          rw [hm1] at hcc
          injection hcc with hcc
          subst hcc
          split at hgo
          · have hres := go_no_catch_up src rest k2p r2 d (i + 1) d (i : Int) true
              hk2 hc2 hm2 le_rfl (by omega) cl2 idx2 mf2 hgo
            omega
          · rename_i himp
            have hres := go_no_catch_up src rest k2p r2 d (i + 1) cl idx mf
              hk2 hc2 hm2 (by omega) (by omega) cl2 idx2 mf2 hgo
            omega
        · rename_i hcc
          rw [hm1] at hcc
          exact Option.noConfusion hcc
      | succ k1p =>
        rw [List.getElem?_cons_succ] at hk1
        by_cases h0 : coarse_eq src r0
        · simp only [fetch_epoch_go, if_pos h0] at hgo
          split at hgo
          · rename_i d0 hd0
            split at hgo
            · have hres := ih k1p k2p r1 r2 d (i + 1) d0 (i : Int) true
                (by omega) hk1 hk2 hc1 hc2 hm1 hm2 (by omega) cl2 idx2 mf2 hgo
              omega
            · have hres := ih k1p k2p r1 r2 d (i + 1) cl idx mf
                (by omega) hk1 hk2 hc1 hc2 hm1 hm2 (by omega) cl2 idx2 mf2 hgo
              omega
          · exact Option.noConfusion hgo
        · simp only [fetch_epoch_go, if_neg h0] at hgo
          have hres := ih k1p k2p r1 r2 d (i + 1) cl idx mf
            (by omega) hk1 hk2 hc1 hc2 hm1 hm2 (by omega) cl2 idx2 mf2 hgo
          omega

/-- The leap and non-leap tables differ by exactly one over any prefix that
includes February. -/
theorem slice_sum_leap (m : Int) (h3 : 3 ≤ m) (h12 : m ≤ 12) :
    (pySlice ([31, 29, 31, 30, 31, 30, 31, 31, 30, 31, 30, 31] : List Int) 0 (m - 1)).sum
      = (pySlice ([31, 28, 31, 30, 31, 30, 31, 31, 30, 31, 30, 31] : List Int) 0 (m - 1)).sum + 1 := by
  interval_cases m <;> decide

/-- C1: `convert_iso_dis_8601` on the two documented test inputs, as amended:
the first returns `1945-245T10:30:17.003Z` as documented, while the second
returns `2004-281T00:07:04.123Z` — day-of-year 281, not the 280 asserted by
the repository's own test (October 7 of the leap year 2004 is in fact the
281st day: 31+29+31+30+31+30+31+31+30 = 274 days before October, plus 7). -/
theorem convert_test_vectors :
    convert_iso_dis_8601 "1945-09-02T10:30:17.003Z" = some "1945-245T10:30:17.003Z" ∧
    convert_iso_dis_8601 "2004-10-07T00:07:04.123Z" = some "2004-281T00:07:04.123Z" :=
  ⟨by decide, by decide⟩

/-- C1 counterexample: on the second documented input the function does not
return the day-of-year 280 value claimed by the spec and the test. -/
theorem convert_oct7_2004_not_280 :
    convert_iso_dis_8601 "2004-10-07T00:07:04.123Z" ≠ some "2004-280T00:07:04.123Z" := by
  decide

/-- C6: failure characterization of `convert_iso_dis_8601`, as amended: the
conversion fails exactly when there is no `T`-separated time part, or one of
the first three `-`-separated date fields is missing or non-numeric.  A month
outside 1–12 does not fail (the slice truncates silently), and extra date
fields or extra `T` parts are ignored, not rejected. -/
theorem convert_failure_characterization (s : String) :
    convert_iso_dis_8601 s = none ↔
      ((time_split s)[1]? = none ∨
       ((convert_sec s)[0]?).bind pyInt? = none ∨
       ((convert_sec s)[1]?).bind pyInt? = none ∨
       ((convert_sec s)[2]?).bind pyInt? = none) := by
  cases h0 : ((convert_sec s)[0]?).bind pyInt? <;>
    cases h1 : ((convert_sec s)[1]?).bind pyInt? <;>
      cases h2 : ((convert_sec s)[2]?).bind pyInt? <;>
        cases h3 : (time_split s)[1]? <;>
          simp [convert_iso_dis_8601, h0, h1, h2, h3]

/-- C6 witness: a string with no `T` part makes the conversion fail. -/
theorem convert_failure_characterization_witness : convert_iso_dis_8601 "abc" = none :=
  (convert_failure_characterization "abc").mpr (Or.inl (by decide))

/-- C6 counterexample: inputs the claim says must fail with `FormatError`
(month 13; four date fields; two `T` separators) all succeed. -/
theorem convert_malformed_inputs_succeed :
    convert_iso_dis_8601 "2004-13-07T00:07:04.123Z" = some "2004-373T00:07:04.123Z" ∧
    convert_iso_dis_8601 "2004-10-07-05T00:07:04.123Z" = some "2004-281T00:07:04.123Z" ∧
    convert_iso_dis_8601 "2004-10-07T00:07TZZ" = some "2004-281T00:07" :=
  ⟨by decide, by decide, by decide⟩

/-- C9: the month table is leap-adjusted exactly when `year % 4 == 0`, with no
century exception: for any such year the day-of-year of a date after February
is one larger than under the non-leap table (`convert_days 1` uses the
non-leap table since `1 % 4 ≠ 0`), and in particular the non-leap years 1900
and 2100 are treated as leap years — March 1 maps to day 061, not 060. -/
theorem convert_leap_rule :
    (∀ y m d : Int, y % 4 = 0 → 3 ≤ m → m ≤ 12 →
       convert_days y m d = convert_days 1 m d + 1) ∧
    convert_iso_dis_8601 "1900-03-01T00:00:00.000Z" = some "1900-061T00:00:00.000Z" ∧
    convert_iso_dis_8601 "2100-03-01T00:00:00.000Z" = some "2100-061T00:00:00.000Z" := by
  refine ⟨?_, by decide, by decide⟩
  intro y m d hy h3 h12
  unfold convert_days days_per_month
  rw [if_pos hy, if_neg (by decide : ¬((1 : Int) % 4 = 0))]
  rw [slice_sum_leap m h3 h12]
  ring

/-- C9 witness: instantiated at year 1900, March 1. -/
theorem convert_leap_rule_witness : convert_days 1900 3 1 = convert_days 1 3 1 + 1 :=
  convert_leap_rule.1 1900 3 1 (by decide) (by decide) (by decide)

/-- C5: if no record's coarse fragment equals the query's (in particular for
the empty dataset), `fetch_epoch_data` returns the explicit no-match signal,
not an error. -/
theorem fetch_epoch_no_match (data : List StateVector) (epoch : String)
    (h : ∀ r ∈ data, ¬ coarse_eq (epoch_fragments epoch) r) :
    fetch_epoch_data data epoch = some FetchResult.noMatch := by
  unfold fetch_epoch_data
  rw [go_all_miss (epoch_fragments epoch) data 0 77 (-1) false h]
  rfl

/-- C5 witness: the empty dataset. -/
theorem fetch_epoch_no_match_witness :
    fetch_epoch_data [] "2024-001T12:00:00.000Z" = some FetchResult.noMatch :=
  fetch_epoch_no_match [] "2024-001T12:00:00.000Z" (by simp)

/-- C7: if a coarse-matching record is encountered whose minute fragment (or
the query's) fails to parse, the whole match attempt fails (`none`), an
outcome distinct from the no-match signal. -/
theorem fetch_epoch_match_error (data : List StateVector) (epoch : String)
    (h : ∃ r ∈ data, coarse_eq (epoch_fragments epoch) r ∧
           minute_diff (epoch_fragments epoch) r = none) :
    fetch_epoch_data data epoch = none ∧
      (none : Option FetchResult) ≠ some FetchResult.noMatch := by
  refine ⟨?_, by simp⟩
  unfold fetch_epoch_data
  rw [go_bad_fragment (epoch_fragments epoch) data 0 77 (-1) false h]

/-- C7 witness: a record with a non-numeric minute fragment in the same hour
as the query. -/
theorem fetch_epoch_match_error_witness :
    fetch_epoch_data [⟨"2019-300T10:xx:00.000Z", none, none, none⟩] "2019-300T10:05:00.000Z" = none ∧
      (none : Option FetchResult) ≠ some FetchResult.noMatch :=
  fetch_epoch_match_error [⟨"2019-300T10:xx:00.000Z", none, none, none⟩] "2019-300T10:05:00.000Z"
    ⟨⟨"2019-300T10:xx:00.000Z", none, none, none⟩, by simp, by decide, by decide⟩

/-- C4: ties resolve to the earliest-occurring eligible candidate — given two
eligible candidates (coarse fragment equal to the query's, minute fragments
parsing) with equal absolute minute difference, the later-indexed one is never
the index selected by the matching loop, because only a strictly smaller
difference replaces the current best. -/
theorem fetch_epoch_tie_break (data : List StateVector) (epoch : String)
    (k1 k2 : Nat) (r1 r2 : StateVector) (d : Int)
    (h12 : k1 < k2) (hk1 : data[k1]? = some r1) (hk2 : data[k2]? = some r2)
    (hc1 : coarse_eq (epoch_fragments epoch) r1) (hc2 : coarse_eq (epoch_fragments epoch) r2)
    (hm1 : minute_diff (epoch_fragments epoch) r1 = some d)
    (hm2 : minute_diff (epoch_fragments epoch) r2 = some d) :
    (fetch_epoch_go (epoch_fragments epoch) data 0 77 (-1) false).map (fun t => t.2.1)
      ≠ some ((k2 : Nat) : Int) := by
  cases hgo : fetch_epoch_go (epoch_fragments epoch) data 0 77 (-1) false with
  | none => simp
  | some t =>
    obtain ⟨cl2, idx2, mf2⟩ := t
    have hne := go_tie (epoch_fragments epoch) data k1 k2 r1 r2 d 0 77 (-1) false
      h12 hk1 hk2 hc1 hc2 hm1 hm2 (by omega) cl2 idx2 mf2 hgo
    simp only [Option.map_some']
    intro hco
    injection hco with hco
    apply hne
    omega

/-- C4 witness: two records two minutes on either side of the query; the loop
selects index 0, not index 1. -/
theorem fetch_epoch_tie_break_witness :
    (fetch_epoch_go (epoch_fragments "2024-001T12:12:00.000Z")
        [⟨"2024-001T12:10:00.000Z", none, none, none⟩,
         ⟨"2024-001T12:14:00.000Z", none, none, none⟩]
        0 77 (-1) false).map (fun t => t.2.1) ≠ some ((1 : Nat) : Int) :=
  fetch_epoch_tie_break
    [⟨"2024-001T12:10:00.000Z", none, none, none⟩,
     ⟨"2024-001T12:14:00.000Z", none, none, none⟩]
    "2024-001T12:12:00.000Z" 0 1
    ⟨"2024-001T12:10:00.000Z", none, none, none⟩
    ⟨"2024-001T12:14:00.000Z", none, none, none⟩ 2
    (by decide) (by decide) (by decide) (by decide) (by decide) (by decide) (by decide)

/-- C10: the initial bound 77 is a real filter — a record in the query's hour
whose minute fragment differs by exactly 77 (possible only with a minute
outside 0–59) is eligible by coarse fragment, yet the matcher reports
no match. -/
theorem fetch_epoch_bound_77 :
    coarse_eq (epoch_fragments "2024-001T12:00:00.000Z")
        ⟨"2024-001T12:77:00.000Z", none, none, none⟩ ∧
    minute_diff (epoch_fragments "2024-001T12:00:00.000Z")
        ⟨"2024-001T12:77:00.000Z", none, none, none⟩ = some 77 ∧
    fetch_epoch_data [⟨"2024-001T12:77:00.000Z", none, none, none⟩]
        "2024-001T12:00:00.000Z" = some FetchResult.noMatch :=
  ⟨by decide, by decide, by decide⟩

/-- C2: `fetch_index_request` resolution and window semantics, as amended.
Defaults are as claimed (offset 0, limit the dataset length, on absence or
parse failure), and for non-negative resolved indices the window is the
clamped-into-`[0, length]` slice, empty when `offset >= length` or
`limit <= offset`.  The restriction to non-negative resolved indices is
forced: a negative integer string counts from the end of the list (CPython
slice semantics) instead of clamping to 0, see the counterexample.  The
function is total (never an error) by construction. -/
theorem fetch_index_request_window {α : Type} (data : List α) (offset limit : Option String) :
    resolve_offset none = 0 ∧
    (∀ s : String, pyInt? s.toList = none → resolve_offset (some s) = 0) ∧
    resolve_limit data none = (data.length : Int) ∧
    (∀ s : String, pyInt? s.toList = none → resolve_limit data (some s) = (data.length : Int)) ∧
    (0 ≤ resolve_offset offset → 0 ≤ resolve_limit data limit →
      (fetch_index_request data offset limit
          = clamp_window_spec data (resolve_offset offset) (resolve_limit data limit) ∧
       (((data.length : Int) ≤ resolve_offset offset ∨
           resolve_limit data limit ≤ resolve_offset offset) →
          fetch_index_request data offset limit = []))) := by
  refine ⟨rfl, fun s hs => by simp only [resolve_offset, Option.some_bind, hs, Option.getD_none],
    rfl,
    fun s hs => by simp only [resolve_limit, Option.some_bind, hs, Option.getD_none],
    fun ha hb => ⟨?_, ?_⟩⟩
  · simp only [fetch_index_request, pySlice, clamp_window_spec]
    rw [if_neg (not_lt.mpr ha), if_neg (not_lt.mpr hb), max_eq_left ha, max_eq_left hb]
  · intro hcase
    simp only [fetch_index_request, pySlice]
    rw [if_neg (not_lt.mpr ha), if_neg (not_lt.mpr hb)]
    rcases hcase with hc | hc
    · rw [min_eq_right hc]
      have hn : ((data.length : Int)).toNat = data.length := by omega
      rw [hn, List.drop_length, List.take_nil]
    · have hmin : min (resolve_limit data limit) ((data.length : Int))
          ≤ min (resolve_offset offset) ((data.length : Int)) := min_le_min hc le_rfl
      have hz : (min (resolve_limit data limit) ((data.length : Int))
          - min (resolve_offset offset) ((data.length : Int))).toNat = 0 := by omega
      rw [hz, List.take_zero]

/-- C2 witness: a small dataset with parseable, in-range arguments. -/
theorem fetch_index_request_window_witness :
    fetch_index_request ([10, 20, 30] : List Nat) (some "1") (some "2")
      = clamp_window_spec ([10, 20, 30] : List Nat)
          (resolve_offset (some "1")) (resolve_limit ([10, 20, 30] : List Nat) (some "2")) :=
  ((fetch_index_request_window ([10, 20, 30] : List Nat) (some "1") (some "2")).2.2.2.2
    (by decide) (by decide)).1

/-- C2 counterexample: with `offset = "3"` and `limit = "-1"` the claim's
window (`limit <= offset`, hence empty) disagrees with the code, which
resolves `-1` to the last index and returns one element. -/
theorem fetch_index_request_negative_limit :
    fetch_index_request ([10, 20, 30, 40, 50] : List Nat) (some "3") (some "-1") = [40] := by
  decide

/-- The square of any `PyFloat` is `nan`, `inf`, or finite non-negative. -/
theorem pySq_shape (a : PyFloat) : sumSqShape (pySq a) := by
  cases a with
  | fin x => exact Or.inr (Or.inr ⟨x ^ 2, sq_nonneg x, rfl⟩)
  | inf => exact Or.inr (Or.inl rfl)
  | neginf => exact Or.inr (Or.inl rfl)
  | nan => exact Or.inl rfl

/-- The radicand shape is closed under float addition. -/
theorem pyAdd_shape {p q : PyFloat} (hp : sumSqShape p) (hq : sumSqShape q) :
    sumSqShape (pyAdd p q) := by
  rcases hp with rfl | rfl | ⟨x, hx, rfl⟩ <;> rcases hq with rfl | rfl | ⟨y, hy, rfl⟩
  · exact Or.inl rfl
  · exact Or.inl rfl
  · exact Or.inl rfl
  · exact Or.inl rfl
  · exact Or.inr (Or.inl rfl)
  · exact Or.inr (Or.inl rfl)
  · exact Or.inl rfl
  · exact Or.inr (Or.inl rfl)
  · exact Or.inr (Or.inr ⟨x + y, add_nonneg hx hy, rfl⟩)

/-- `math.sqrt` never raises on a radicand of that shape. -/
theorem pySqrt_shape_isSome {p : PyFloat} (hp : sumSqShape p) : (pySqrt p).isSome := by
  rcases hp with rfl | rfl | ⟨x, hx, rfl⟩
  · rfl
  · rfl
  · simp only [pySqrt]
    rw [if_pos hx]
    rfl

/-- `cartesian_velocity_to_speed` never hits its `except` branch: the sum of
squares is never a negative or `-inf` argument to `math.sqrt`. -/
theorem speed_isSome (x y z : PyFloat) : (cartesian_velocity_to_speed x y z).isSome :=
  pySqrt_shape_isSome (pyAdd_shape (pyAdd_shape (pySq_shape x) (pySq_shape y)) (pySq_shape z))

/-- `avg_members` counts exactly the records whose three velocity components
parse as floats (finite or not). -/
theorem average_loop_count :
    ∀ (l : List StateVector) (acc : PyFloat) (k : Nat),
      (average_loop l acc k).2 = k + (l.filter (fun r => (record_velocity r).isSome)).length := by
  intro l
  induction l with
  | nil => intro acc k; simp [average_loop]
  | cons r rest ih =>
    intro acc k
    simp only [average_loop]
    split
    · rename_i hv
      rw [ih, List.filter_cons]
      simp [hv]
    · rename_i x y z hv
      split
      · rename_i hs
        have hsome := speed_isSome x y z
        rw [hs] at hsome
        simp at hsome
      · rename_i s hs
        rw [ih, List.filter_cons]
        simp only [hv, Option.isSome_some, if_pos, List.length_cons]
        omega

/-- C3: `compute_average_speed`, as amended: a record is skipped exactly when
one of its three components is missing or fails to parse — a parseable
non-finite component is *not* skipped (see the counterexample, where the mean
becomes `nan`) — and the call signals the generic logged failure (`none`, the
caught `ZeroDivisionError`), not a distinct `EmptyInputError`, exactly when
no record parses. -/
theorem compute_average_speed_characterization :
    (∀ data : List StateVector,
       compute_average_speed data = none ↔ ∀ r ∈ data, record_velocity r = none) ∧
    (∀ data : List StateVector,
       (average_loop data (PyFloat.fin 0) 0).2
         = (data.filter (fun r => (record_velocity r).isSome)).length) := by
  have hc : ∀ data : List StateVector,
      (average_loop data (PyFloat.fin 0) 0).2
        = (data.filter (fun r => (record_velocity r).isSome)).length := by
    intro data
    simpa using average_loop_count data (PyFloat.fin 0) 0
  refine ⟨?_, hc⟩
  intro data
  simp only [compute_average_speed]
  constructor
  · intro h
    by_cases h0 : (average_loop data (PyFloat.fin 0) 0).2 = 0
    · rw [hc data] at h0
      have hfil := List.length_eq_zero.mp h0
      intro r hr
      have hns := List.filter_eq_nil_iff.mp hfil r hr
      exact Option.not_isSome_iff_eq_none.mp (by simpa using hns)
    · rw [if_neg h0] at h
      exact absurd h (by simp)
  · intro h
    have h0 : (average_loop data (PyFloat.fin 0) 0).2 = 0 := by
      rw [hc data]
      rw [List.length_eq_zero, List.filter_eq_nil_iff]
      intro r hr
      simp [h r hr]
    rw [if_pos h0]

/-- C3 witness: the empty dataset (no record parses vacuously) fails. -/
theorem compute_average_speed_characterization_witness :
    compute_average_speed [] = none :=
  (compute_average_speed_characterization.1 []).mpr (by simp)

/-- C3 counterexample: a record whose `X_DOT` is the parseable non-finite
string `"nan"` is not skipped, and the function returns `nan` — the claim
says such a record is skipped and that with zero finite-valid records the
function fails with `EmptyInputError` rather than returning NaN. -/
theorem compute_average_speed_nan_not_skipped :
    compute_average_speed [⟨"E1", some "nan", some "0", some "0"⟩] = some PyFloat.nan := rfl

/-- C8: `cartesian_velocity_to_speed`, as amended: on finite inputs it is the
Euclidean norm (exact-arithmetic model; IEEE overflow out of scope), but
non-finite inputs are *not* checked: `nan` propagates silently into the
result instead of failing with a `NumericError` (and so does `inf`, see the
counterexample). -/
theorem cartesian_velocity_norm :
    (∀ x y z : ℝ, cartesian_velocity_to_speed (PyFloat.fin x) (PyFloat.fin y) (PyFloat.fin z)
        = some (PyFloat.fin (Real.sqrt (x ^ 2 + y ^ 2 + z ^ 2)))) ∧
    cartesian_velocity_to_speed PyFloat.nan (PyFloat.fin 0) (PyFloat.fin 0) = some PyFloat.nan := by
  refine ⟨?_, rfl⟩
  intro x y z
  have h1 : cartesian_velocity_to_speed (PyFloat.fin x) (PyFloat.fin y) (PyFloat.fin z)
      = pySqrt (PyFloat.fin (x ^ 2 + y ^ 2 + z ^ 2)) := rfl
  rw [h1]
  simp only [pySqrt]
  rw [if_pos (by positivity)]

/-- C8 counterexample: an infinite velocity component is silently propagated —
the result is `some inf`, not the claimed `NumericError` failure. -/
theorem cartesian_velocity_inf_not_checked :
    cartesian_velocity_to_speed PyFloat.inf (PyFloat.fin 0) (PyFloat.fin 0) = some PyFloat.inf := rfl
